import Mathlib

/-!
Verification of the recurring-habit scheduling and statistics-aggregation
core of the Habit-tracker application.

The JavaScript source (src/script.js, src/stats.js) is shallowly embedded
below: its mutable module state becomes an explicit `AppState`, its
date-keyed history object becomes an insertion-ordered association list,
and the clock is abstracted as a pair (`today : String`,
`dayIdx : String → Nat`), mirroring the spec's Clock collaborator.
JS `Math.round((completed/total)*100)` on non-negative integers is
modelled exactly as `(200*completed + total) / (2*total)` in `Nat`.
-/

namespace HabitTracker

/-- A habit record, as stored in the `habits` array of script.js:
one scheduled occurrence of a recurring activity on exactly one weekday.
`groupId = none` models a JS `null`/absent group id. -/
structure Habit where
  id : String
  groupId : Option String
  dayOfWeek : Nat
  name : String
  time : String
  description : String
  completed : Bool
  createdAt : String
deriving DecidableEq, Repr

/-- One entry of a history record, as written by `checkDailyReset`:
`{id, groupId, name, completed}`. -/
structure HistEntry where
  id : String
  groupId : Option String
  name : String
  completed : Bool
deriving DecidableEq, Repr

/-- The `history` JS object: date key → list of entries, kept in key
insertion order (JS objects preserve first-insertion order for these
non-numeric keys). -/
abbrev History := List (String × List HistEntry)

/-- JS `history[date] = record`: overwrite the value at an existing key in
place, else append the new key at the end. -/
def histSet : History → String → List HistEntry → History
  | [], d, r => [(d, r)]
  | (k, v) :: t, d, r => if k = d then (k, r) :: t else (k, v) :: histSet t d r

/-- JS `history[date]` read: `none` models `undefined` (absent key). -/
def histGet (h : History) (d : String) : Option (List HistEntry) :=
  (h.find? (fun p => p.1 = d)).map (fun p => p.2)

/-- The module-level mutable state of script.js that the core operates on:
`habits`, `history`, `streak`, `bestStreak`, `lastDate`
(`lastDate = none` models JS `null`/`undefined`). -/
structure AppState where
  habits : List Habit
  history : History
  streak : Nat
  bestStreak : Nat
  lastDate : Option String
deriving DecidableEq, Repr

/-- Strict lexicographic order on character lists (the order JS `<` gives
on strings; on ISO `YYYY-MM-DD` date strings it is chronological order). -/
def strLtAux : List Char → List Char → Bool
  | [], [] => false
  | [], _ :: _ => true
  | _ :: _, [] => false
  | a :: as, b :: bs => if a < b then true else if b < a then false else strLtAux as bs

/-- `dateBefore a b` : the ISO date string `a` precedes `b`. -/
def dateBefore (a b : String) : Bool := strLtAux a.data b.data

/-- JS exact rounding `Math.round((completed/total)*100)` for
`0 ≤ completed`, `0 < total`: `⌊100*completed/total + 1/2⌋`. -/
def jsRound100 (completed total : Nat) : Nat :=
  (200 * completed + total) / (2 * total)

/-- `habits.forEach(habit => { habit.completed = false })` of the rollover. -/
def resetCompleted (hs : List Habit) : List Habit :=
  hs.map (fun h => { h with completed := false })

/-- The history entry the rollover writes for a habit. -/
def toHistEntry (h : Habit) : HistEntry :=
  ⟨h.id, h.groupId, h.name, h.completed⟩

/-- `checkDailyReset` of script.js (the Daily Rollover Engine), with the
clock abstracted: `today` is `getTodayDate()` and `dayIdx` is
`getDayIndexFromDate`.  The guard `lastDate && lastDate !== today` is a
no-op when `lastDate` is `null` (`none`), the empty string (JS falsy) or
equal to `today`. -/
def checkDailyReset (dayIdx : String → Nat) (today : String) (s : AppState) : AppState :=
  match s.lastDate with
  | none => s
  | some ld =>
    if ld = "" ∨ ld = today then s
    else
      let yesterdayIndex := dayIdx ld
      let yesterdayHabits := s.habits.filter (fun h => h.dayOfWeek = yesterdayIndex)
      if yesterdayHabits.length > 0 then
        let yesterdayRecord := yesterdayHabits.map toHistEntry
        let history' := histSet s.history ld yesterdayRecord
        if yesterdayHabits.all (fun h => h.completed) then
          let streak' := s.streak + 1
          let bestStreak' := if streak' > s.bestStreak then streak' else s.bestStreak
          { habits := resetCompleted s.habits, history := history',
            streak := streak', bestStreak := bestStreak', lastDate := some today }
        else
          { habits := resetCompleted s.habits, history := history',
            streak := 0, bestStreak := s.bestStreak, lastDate := some today }
      else
        { habits := resetCompleted s.habits, history := s.history,
          streak := s.streak, bestStreak := s.bestStreak, lastDate := some today }

/-- A sequence of rollover attempts, each with its own clock reading. -/
def rolloverSeq (dayIdx : String → Nat) (s : AppState) (todays : List String) : AppState :=
  todays.foldl (fun st t => checkDailyReset dayIdx t st) s

/-! ## Aggregation Engine (stats.js) -/

/-- Result of `getDateStats`. -/
structure DayStats where
  total : Nat
  completed : Nat
  rate : Nat
deriving DecidableEq, Repr

/-- `getDateStats` of stats.js: completion stats for one date, from the
live Habit Store when the date is today, else from the History Log. -/
def getDateStats (habits : List Habit) (history : History) (today date : String) : DayStats :=
  if date = today then
    let total := habits.length
    let completed := (habits.filter (fun h => h.completed)).length
    ⟨total, completed, if total = 0 then 0 else jsRound100 completed total⟩
  else
    match histGet history date with
    | some dayData =>
      if dayData.length > 0 then
        let completed := (dayData.filter (fun e => e.completed)).length
        ⟨dayData.length, completed, jsRound100 completed dayData.length⟩
      else ⟨0, 0, 0⟩
    | none => ⟨0, 0, 0⟩

/-- The spec's description of `dailyStats` for C1, written from the
spec's words for comparison against `getDateStats`: for today, total and
completed allegedly come from the live Habit Store *filtered to today's
weekday*. -/
def dailyStatsClaimed (dayIdx : String → Nat) (habits : List Habit) (history : History)
    (today date : String) : DayStats :=
  if date = today then
    let todays := habits.filter (fun h => h.dayOfWeek = dayIdx today)
    let total := todays.length
    let completed := (todays.filter (fun h => h.completed)).length
    ⟨total, completed, if total = 0 then 0 else jsRound100 completed total⟩
  else
    match histGet history date with
    | some dayData =>
      if dayData.length > 0 then
        let completed := (dayData.filter (fun e => e.completed)).length
        ⟨dayData.length, completed, jsRound100 completed dayData.length⟩
      else ⟨0, 0, 0⟩
    | none => ⟨0, 0, 0⟩

/-- `bestDay`/`worstDay` value of `calculateStats` (rate is a JS number:
the initial sentinels are `-1` and `101`). -/
structure DayRate where
  date : Option String
  rate : Int
deriving DecidableEq, Repr

/-- Result of `calculateStats`. -/
structure RangeStats where
  totalTasks : Nat
  totalCompleted : Nat
  overallRate : Nat
  avgRate : Nat
  bestDay : DayRate
  worstDay : DayRate
  daysWithData : Nat
deriving DecidableEq, Repr

/-- The local accumulator variables of `calculateStats`. -/
structure StatsAcc where
  totalTasks : Nat
  totalCompleted : Nat
  bestDay : DayRate
  worstDay : DayRate
  daysWithData : Nat
deriving DecidableEq, Repr

/-- JS truthiness of an optional string (`null`/`undefined` and the empty
string are falsy). -/
def optStrTruthy : Option String → Bool
  | none => false
  | some d => d ≠ ""

/-- `calculateStats` of stats.js.  The returned `avgRate` is
`Math.round(overallRate)` — the integer `overallRate` itself (the local
`avgRate` variable of the source is dead). -/
def calculateStats (habits : List Habit) (history : History) (today : String)
    (dates : List String) : RangeStats :=
  let a := dates.foldl
    (fun (a : StatsAcc) date =>
      let stats := getDateStats habits history today date
      if stats.total > 0 then
        { totalTasks := a.totalTasks + stats.total,
          totalCompleted := a.totalCompleted + stats.completed,
          bestDay := if (stats.rate : Int) > a.bestDay.rate
            then ⟨some date, (stats.rate : Int)⟩ else a.bestDay,
          worstDay := if (stats.rate : Int) < a.worstDay.rate
            then ⟨some date, (stats.rate : Int)⟩ else a.worstDay,
          daysWithData := a.daysWithData + 1 }
      else a)
    ⟨0, 0, ⟨none, -1⟩, ⟨none, 101⟩, 0⟩
  let overallRate := if a.totalTasks = 0 then 0 else jsRound100 a.totalCompleted a.totalTasks
  { totalTasks := a.totalTasks, totalCompleted := a.totalCompleted,
    overallRate := overallRate, avgRate := overallRate,
    bestDay := a.bestDay,
    worstDay := if optStrTruthy a.worstDay.date then a.worstDay else ⟨none, 0⟩,
    daysWithData := a.daysWithData }

/-! ## Per-group breakdown (renderHabitsBreakdown of stats.js) -/

/-- `DAYS_OF_WEEK` of stats.js. -/
def DAYS_OF_WEEK : List String := ["Sun", "Mon", "Tue", "Wed", "Thu", "Fri", "Sat"]

/-- The grouping key of renderHabitsBreakdown: the JS expression
`habit.groupId || "standalone_" + habit.id` (the empty string is falsy). -/
def groupKey (h : Habit) : String :=
  match h.groupId with
  | some g => if g = "" then "standalone_" ++ h.id else g
  | none => "standalone_" ++ h.id

/-- Insert a habit into the JS `habitGroups` object: append to the entry
with the given key if present, else create a new entry at the end. -/
def insertGrouped : List (String × List Habit) → String → Habit → List (String × List Habit)
  | [], key, h => [(key, [h])]
  | (k, hs) :: t, key, h =>
    if k = key then (k, hs ++ [h]) :: t else (k, hs) :: insertGrouped t key h

/-- Step 1 of renderHabitsBreakdown: partition the Habit Store by group
key, entries in key insertion order (as `Object.values` yields them). -/
def habitGroups (habits : List Habit) : List (String × List Habit) :=
  habits.foldl (fun acc h => insertGrouped acc (groupKey h) h) []

/-- The `groupId` field the JS group object records — from the first habit
inserted into the group. -/
def groupIdOf (hs : List Habit) : Option String :=
  match hs with
  | [] => none
  | h :: _ => h.groupId

/-- The `name` field of the JS group object — from the first habit. -/
def groupNameOf (hs : List Habit) : String :=
  match hs with
  | [] => ""
  | h :: _ => h.name

/-- The completion check of the renderHabitsBreakdown inner loop: 1 when
the scheduled habit counts as completed on the date (live flag for today,
else history lookup by id with a groupId fallback), 0 otherwise. -/
def completedOn (today : String) (history : History) (hs : List Habit)
    (scheduledHabit : Habit) (date : String) : Nat :=
  if date = today then
    if scheduledHabit.completed then 1 else 0
  else
    match histGet history date with
    | none => 0
    | some dayData =>
      match dayData.find? (fun e => e.id = scheduledHabit.id) with
      | some histHabit => if histHabit.completed then 1 else 0
      | none =>
        match groupIdOf hs with
        | some gid =>
          if gid = "" then 0
          else
            match dayData.find? (fun e => e.groupId = some gid) with
            | some histByGroup => if histByGroup.completed then 1 else 0
            | none => 0
        | none => 0

/-- One iteration of the renderHabitsBreakdown inner loop over the dates:
skip if no instance of the group is scheduled on the date's weekday, else
count a scheduled day and possibly a completed day. -/
def groupDateStep (dayIdx : String → Nat) (today : String) (history : History)
    (hs : List Habit) (acc : Nat × Nat) (date : String) : Nat × Nat :=
  match hs.find? (fun h => h.dayOfWeek = dayIdx date) with
  | none => acc
  | some scheduledHabit =>
    (acc.1 + 1, acc.2 + completedOn today history hs scheduledHabit date)

/-- Step 2 inner loop of renderHabitsBreakdown: scan the dates, counting
(scheduled days, completed days) for one group with instances `hs`. -/
def groupDayCounts (dayIdx : String → Nat) (today : String) (history : History)
    (hs : List Habit) (dates : List String) : Nat × Nat :=
  dates.foldl (groupDateStep dayIdx today history hs) (0, 0)

/-- Lookup helper for reasoning about `habitGroups`: the habit list at a
key (empty when the key is absent). -/
def groupVal (acc : List (String × List Habit)) (k : String) : List Habit :=
  match acc.find? (fun p => p.1 = k) with
  | some p => p.2
  | none => []

/-- One output row of the breakdown. -/
structure BreakdownRow where
  name : String
  groupId : Option String
  completedCount : Nat
  totalCount : Nat
  rate : Nat
  scheduledDays : String
  isGrouped : Bool
deriving DecidableEq, Repr

/-- Ascending insertion into a sorted list of day indices. -/
def insertAsc (x : Nat) : List Nat → List Nat
  | [] => [x]
  | y :: ys => if y ≤ x then y :: insertAsc x ys else x :: y :: ys

/-- `[...new Set(dayIndices)].sort((a,b) => a-b)` then day names joined:
the sorted distinct weekday names of a group. -/
def dayNamesOf (dayIndices : List Nat) : String :=
  String.intercalate ", "
    ((dayIndices.dedup.foldr insertAsc []).map (fun d => DAYS_OF_WEEK.getD d "undefined"))

/-- Build the breakdown row for one group entry. -/
def mkBreakdownRow (dayIdx : String → Nat) (today : String) (history : History)
    (dates : List String) (g : String × List Habit) : BreakdownRow :=
  let counts := groupDayCounts dayIdx today history g.2 dates
  { name := groupNameOf g.2,
    groupId := groupIdOf g.2,
    completedCount := counts.2,
    totalCount := counts.1,
    rate := if counts.1 = 0 then 0 else jsRound100 counts.2 counts.1,
    scheduledDays := dayNamesOf (g.2.map (fun h => h.dayOfWeek)),
    isGrouped := decide (g.2.length > 1) }

/-- Step 2 of renderHabitsBreakdown: the unsorted row list. -/
def groupStatsPre (dayIdx : String → Nat) (today : String) (history : History)
    (habits : List Habit) (dates : List String) : List BreakdownRow :=
  (habitGroups habits).map (mkBreakdownRow dayIdx today history dates)

/-- Stable descending insertion by rate. -/
def insertByRate (r : BreakdownRow) : List BreakdownRow → List BreakdownRow
  | [] => [r]
  | x :: xs => if r.rate < x.rate then x :: insertByRate r xs else r :: x :: xs

/-- Stable sort descending by rate: `sort((a, b) => b.rate - a.rate)`
(JS array sort is stable, so its result is exactly this). -/
def sortByRate (l : List BreakdownRow) : List BreakdownRow := l.foldr insertByRate []

/-- Step 3 of renderHabitsBreakdown: the final sorted row list — the
spec's `groupBreakdown`. -/
def groupStats (dayIdx : String → Nat) (today : String) (history : History)
    (habits : List Habit) (dates : List String) : List BreakdownRow :=
  sortByRate (groupStatsPre dayIdx today history habits dates)

/-! ## Habit Store CRUD (script.js) -/

/-- The name/time/description fields the edit form may pass to
`updateHabit` (`none` = key absent from `updates`). -/
structure UpdateFields where
  name : Option String
  time : Option String
  description : Option String
deriving DecidableEq, Repr

/-- `Object.assign(habit, updates)` for the fields of `UpdateFields`. -/
def applyUpdate (u : UpdateFields) (h : Habit) : Habit :=
  { h with
    name := u.name.getD h.name,
    time := u.time.getD h.time,
    description := u.description.getD h.description }

/-- `habits.find(h => h.id === id)` followed by the in-place
`Object.assign`: only the first habit with the given id is modified; if
none is found the list is unchanged. -/
def updateHabitList (id : String) (u : UpdateFields) : List Habit → List Habit
  | [] => []
  | h :: t => if h.id = id then applyUpdate u h :: t else h :: updateHabitList id u t

/-- `updateHabit` of script.js on the embedded state (render and the
Firestore call are external effects; no other state field is touched). -/
def updateHabit (id : String) (u : UpdateFields) (s : AppState) : AppState :=
  { s with habits := updateHabitList id u s.habits }

/-- One day's configuration passed to `addHabits`. -/
structure DayConfig where
  name : String
  time : String
  description : String
deriving DecidableEq, Repr

/-- A persistence-collaborator call issued by a Habit Store operation. -/
inductive PersistCall where
  | saveHabit (h : Habit)
deriving DecidableEq, Repr

/-- `config.time || "09:00"` (the empty string is falsy). -/
def timeOrDefault (t : String) : String := if t = "" then "09:00" else t

/-- `addHabits(dayConfigs)` of script.js.  `dayConfigs` is the JS object
in key-iteration order; `gen` supplies the successive `generateId()`
results and `now` the creation timestamp.  Returns the new state together
with the list of persistence calls issued. -/
def addHabits (gen : Nat → String) (now : String) (dayConfigs : List (Nat × DayConfig))
    (s : AppState) : AppState × List PersistCall :=
  let days := dayConfigs.map (fun p => p.1)
  if days.length = 0 then (s, [])
  else
    let groupId := if days.length > 1 then some (gen 0) else none
    let newHabits := dayConfigs.enum.map (fun p =>
      ({ id := gen (p.1 + 1), groupId := groupId, dayOfWeek := p.2.1,
         name := p.2.2.name.trim, time := timeOrDefault p.2.2.time,
         description := p.2.2.description.trim, completed := false,
         createdAt := now } : Habit))
    ({ s with habits := s.habits ++ newHabits },
      newHabits.map PersistCall.saveHabit)

end HabitTracker

namespace HabitTracker

theorem strLtAux_irrefl (l : List Char) : strLtAux l l = false := by
  induction l with
  | nil => rfl
  | cons a as ih => simp [strLtAux, ih]

theorem dateBefore_ne {a b : String} (h : dateBefore a b = true) : a ≠ b := by
  intro he
  subst he
  rw [dateBefore, strLtAux_irrefl] at h
  exact Bool.noConfusion h

theorem histGet_histSet_self (h : History) (d : String) (r : List HistEntry) :
    histGet (histSet h d r) d = some r := by
  induction h with
  | nil => simp [histSet, histGet, List.find?]
  | cons p t ih =>
    by_cases hk : p.1 = d
    · simp [histSet, hk, histGet, List.find?]
    · simpa [histSet, hk, histGet, List.find?] using ih

/-! Characterization of the rollover, one lemma per control path. -/

theorem checkDailyReset_noneLast (dayIdx : String → Nat) (today : String)
    (hs : List Habit) (hist : History) (st best : Nat) :
    checkDailyReset dayIdx today ⟨hs, hist, st, best, none⟩ = ⟨hs, hist, st, best, none⟩ := rfl

theorem checkDailyReset_guard (dayIdx : String → Nat) (today : String)
    (hs : List Habit) (hist : History) (st best : Nat) (ld : String)
    (hg : ld = "" ∨ ld = today) :
    checkDailyReset dayIdx today ⟨hs, hist, st, best, some ld⟩ =
      ⟨hs, hist, st, best, some ld⟩ := by
  unfold checkDailyReset
  dsimp only
  rw [if_pos hg]

theorem checkDailyReset_allDone (dayIdx : String → Nat) (today : String)
    (hs : List Habit) (hist : History) (st best : Nat) (ld : String)
    (hg : ¬ (ld = "" ∨ ld = today))
    (hlen : (hs.filter (fun h => h.dayOfWeek = dayIdx ld)).length > 0)
    (hall : (hs.filter (fun h => h.dayOfWeek = dayIdx ld)).all (fun h => h.completed) = true) :
    checkDailyReset dayIdx today ⟨hs, hist, st, best, some ld⟩ =
      ⟨resetCompleted hs,
        histSet hist ld ((hs.filter (fun h => h.dayOfWeek = dayIdx ld)).map toHistEntry),
        st + 1, if st + 1 > best then st + 1 else best, some today⟩ := by
  unfold checkDailyReset
  dsimp only
  rw [if_neg hg, if_pos hlen, if_pos hall]

theorem checkDailyReset_missed (dayIdx : String → Nat) (today : String)
    (hs : List Habit) (hist : History) (st best : Nat) (ld : String)
    (hg : ¬ (ld = "" ∨ ld = today))
    (hlen : (hs.filter (fun h => h.dayOfWeek = dayIdx ld)).length > 0)
    (hnall : (hs.filter (fun h => h.dayOfWeek = dayIdx ld)).all (fun h => h.completed) = false) :
    checkDailyReset dayIdx today ⟨hs, hist, st, best, some ld⟩ =
      ⟨resetCompleted hs,
        histSet hist ld ((hs.filter (fun h => h.dayOfWeek = dayIdx ld)).map toHistEntry),
        0, best, some today⟩ := by
  unfold checkDailyReset
  dsimp only
  rw [if_neg hg, if_pos hlen, if_neg (by simp [hnall])]

theorem checkDailyReset_noSchedule (dayIdx : String → Nat) (today : String)
    (hs : List Habit) (hist : History) (st best : Nat) (ld : String)
    (hg : ¬ (ld = "" ∨ ld = today))
    (hemp : (hs.filter (fun h => h.dayOfWeek = dayIdx ld)) = []) :
    checkDailyReset dayIdx today ⟨hs, hist, st, best, some ld⟩ =
      ⟨resetCompleted hs, hist, st, best, some today⟩ := by
  unfold checkDailyReset
  dsimp only
  rw [if_neg hg, if_neg (by simp [hemp])]

/-- C3: after a rollover from a stale state, the streak is incremented by 1
if all habits scheduled for the last-active weekday were completed, reset
to 0 if at least one such habit was incomplete, and unchanged if no habit
was scheduled for that weekday. -/
theorem claim3_rollover_streak (dayIdx : String → Nat) (today : String) (s : AppState)
    (ld : String) (hld : s.lastDate = some ld) (hne : ld ≠ "")
    (hprec : dateBefore ld today = true) :
    ((s.habits.filter (fun h => h.dayOfWeek = dayIdx ld)) ≠ [] →
      (s.habits.filter (fun h => h.dayOfWeek = dayIdx ld)).all (fun h => h.completed) = true →
      (checkDailyReset dayIdx today s).streak = s.streak + 1) ∧
    ((s.habits.filter (fun h => h.dayOfWeek = dayIdx ld)) ≠ [] →
      (s.habits.filter (fun h => h.dayOfWeek = dayIdx ld)).all (fun h => h.completed) = false →
      (checkDailyReset dayIdx today s).streak = 0) ∧
    ((s.habits.filter (fun h => h.dayOfWeek = dayIdx ld)) = [] →
      (checkDailyReset dayIdx today s).streak = s.streak) := by
  have hnt : ld ≠ today := dateBefore_ne hprec
  have hg : ¬ (ld = "" ∨ ld = today) := by
    rintro (h | h)
    · exact hne h
    · exact hnt h
  obtain ⟨hs, hist, st, best, old⟩ := s
  simp only at hld
  subst hld
  refine ⟨?_, ?_, ?_⟩
  · intro hne' hall
    rw [checkDailyReset_allDone dayIdx today hs hist st best ld hg
      (List.length_pos.mpr hne') hall]
  · intro hne' hnall
    rw [checkDailyReset_missed dayIdx today hs hist st best ld hg
      (List.length_pos.mpr hne') hnall]
  · intro hemp
    rw [checkDailyReset_noSchedule dayIdx today hs hist st best ld hg hemp]

/-- Witness for C3 at a concrete state: one habit scheduled on the
last-active weekday and completed, so the streak increments. -/
theorem claim3_rollover_streak_witness :
    (checkDailyReset (fun _ => 1) "2024-01-02"
      ⟨[⟨"h1", none, 1, "Read", "09:00", "", true, "t0"⟩], [], 2, 5, some "2024-01-01"⟩).streak
      = 2 + 1 :=
  (claim3_rollover_streak (fun _ => 1) "2024-01-02"
      ⟨[⟨"h1", none, 1, "Read", "09:00", "", true, "t0"⟩], [], 2, 5, some "2024-01-01"⟩
      "2024-01-01" rfl (by decide) (by decide)).1 (by decide) (by decide)

theorem rollover_best_step (dayIdx : String → Nat) (today : String) (s : AppState)
    (h : s.streak ≤ s.bestStreak) :
    (checkDailyReset dayIdx today s).streak ≤ (checkDailyReset dayIdx today s).bestStreak ∧
    s.bestStreak ≤ (checkDailyReset dayIdx today s).bestStreak := by
  obtain ⟨hs, hist, st, best, old⟩ := s
  simp only at h
  cases old with
  | none => exact ⟨h, le_refl _⟩
  | some ld =>
    by_cases hg : ld = "" ∨ ld = today
    · rw [checkDailyReset_guard dayIdx today hs hist st best ld hg]
      exact ⟨h, le_refl _⟩
    · by_cases hlen : (hs.filter (fun h => h.dayOfWeek = dayIdx ld)).length > 0
      · by_cases hall : (hs.filter (fun h => h.dayOfWeek = dayIdx ld)).all
            (fun h => h.completed) = true
        · rw [checkDailyReset_allDone dayIdx today hs hist st best ld hg hlen hall]
          dsimp only
          constructor <;> split <;> omega
        · have hnall : (hs.filter (fun h => h.dayOfWeek = dayIdx ld)).all
              (fun h => h.completed) = false := by simpa using hall
          rw [checkDailyReset_missed dayIdx today hs hist st best ld hg hlen hnall]
          exact ⟨Nat.zero_le _, le_refl _⟩
      · have hemp : (hs.filter (fun h => h.dayOfWeek = dayIdx ld)) = [] := by
          simpa using hlen
        rw [checkDailyReset_noSchedule dayIdx today hs hist st best ld hg hemp]
        exact ⟨h, le_refl _⟩

/-- C4: starting from a state with `bestStreak ≥ streak`, after any
sequence of rollovers `bestStreak ≥ streak` still holds and `bestStreak`
is non-decreasing; moreover each single rollover step preserves the
invariant and never decreases `bestStreak`. -/
theorem claim4_best_streak_monotone (dayIdx : String → Nat) (s : AppState)
    (h : s.streak ≤ s.bestStreak) (todays : List String) :
    ((rolloverSeq dayIdx s todays).streak ≤ (rolloverSeq dayIdx s todays).bestStreak ∧
      s.bestStreak ≤ (rolloverSeq dayIdx s todays).bestStreak) ∧
    (∀ t (st : AppState), st.streak ≤ st.bestStreak →
      (checkDailyReset dayIdx t st).streak ≤ (checkDailyReset dayIdx t st).bestStreak ∧
      st.bestStreak ≤ (checkDailyReset dayIdx t st).bestStreak) := by
  refine ⟨?_, fun t st hst => rollover_best_step dayIdx t st hst⟩
  induction todays generalizing s with
  | nil => exact ⟨h, le_refl _⟩
  | cons t ts ih =>
    have hstep := rollover_best_step dayIdx t s h
    have hrest := ih (checkDailyReset dayIdx t s) hstep.1
    exact ⟨hrest.1, le_trans hstep.2 hrest.2⟩

/-- Witness for C4 at a concrete state and a concrete two-day sequence. -/
theorem claim4_best_streak_monotone_witness :
    (rolloverSeq (fun _ => 1)
        ⟨[⟨"h1", none, 1, "Read", "09:00", "", true, "t0"⟩], [], 2, 2, some "2024-01-01"⟩
        ["2024-01-02", "2024-01-03"]).streak ≤
      (rolloverSeq (fun _ => 1)
        ⟨[⟨"h1", none, 1, "Read", "09:00", "", true, "t0"⟩], [], 2, 2, some "2024-01-01"⟩
        ["2024-01-02", "2024-01-03"]).bestStreak ∧
    (2 : Nat) ≤ (rolloverSeq (fun _ => 1)
        ⟨[⟨"h1", none, 1, "Read", "09:00", "", true, "t0"⟩], [], 2, 2, some "2024-01-01"⟩
        ["2024-01-02", "2024-01-03"]).bestStreak :=
  (claim4_best_streak_monotone (fun _ => 1)
      ⟨[⟨"h1", none, 1, "Read", "09:00", "", true, "t0"⟩], [], 2, 2, some "2024-01-01"⟩
      (by decide) ["2024-01-02", "2024-01-03"]).1

/-- C5: the rollover is idempotent — running `checkDailyReset` twice with
the same clock reading equals running it once, and a run whose stored
last-active-date is absent or already equals today changes nothing. -/
theorem claim5_rollover_idempotent (dayIdx : String → Nat) (today : String) (s : AppState) :
    checkDailyReset dayIdx today (checkDailyReset dayIdx today s) =
      checkDailyReset dayIdx today s ∧
    (s.lastDate = none ∨ s.lastDate = some today → checkDailyReset dayIdx today s = s) := by
  obtain ⟨hs, hist, st, best, old⟩ := s
  constructor
  · cases old with
    | none => rfl
    | some ld =>
      by_cases hg : ld = "" ∨ ld = today
      · rw [checkDailyReset_guard dayIdx today hs hist st best ld hg,
          checkDailyReset_guard dayIdx today hs hist st best ld hg]
      · by_cases hlen : (hs.filter (fun h => h.dayOfWeek = dayIdx ld)).length > 0
        · by_cases hall : (hs.filter (fun h => h.dayOfWeek = dayIdx ld)).all
              (fun h => h.completed) = true
          · rw [checkDailyReset_allDone dayIdx today hs hist st best ld hg hlen hall,
              checkDailyReset_guard _ _ _ _ _ _ _ (Or.inr rfl)]
          · have hnall : (hs.filter (fun h => h.dayOfWeek = dayIdx ld)).all
                (fun h => h.completed) = false := by simpa using hall
            rw [checkDailyReset_missed dayIdx today hs hist st best ld hg hlen hnall,
              checkDailyReset_guard _ _ _ _ _ _ _ (Or.inr rfl)]
        · have hemp : (hs.filter (fun h => h.dayOfWeek = dayIdx ld)) = [] := by
            simpa using hlen
          rw [checkDailyReset_noSchedule dayIdx today hs hist st best ld hg hemp,
            checkDailyReset_guard _ _ _ _ _ _ _ (Or.inr rfl)]
  · rintro (hld | hld) <;> simp only at hld <;> subst hld
    · rfl
    · exact checkDailyReset_guard dayIdx today hs hist st best today (Or.inr rfl)

/-- Witness for C5: idempotence at a concrete stale state, and the no-op
when the stored date already equals today. -/
theorem claim5_rollover_idempotent_witness :
    (checkDailyReset (fun _ => 1) "2024-01-02"
        (checkDailyReset (fun _ => 1) "2024-01-02"
          ⟨[⟨"h1", none, 1, "Read", "09:00", "", true, "t0"⟩], [], 2, 5, some "2024-01-01"⟩) =
      checkDailyReset (fun _ => 1) "2024-01-02"
        ⟨[⟨"h1", none, 1, "Read", "09:00", "", true, "t0"⟩], [], 2, 5, some "2024-01-01"⟩) ∧
    checkDailyReset (fun _ => 1) "2024-01-02"
        ⟨[⟨"h1", none, 1, "Read", "09:00", "", true, "t0"⟩], [], 2, 5, some "2024-01-02"⟩ =
      ⟨[⟨"h1", none, 1, "Read", "09:00", "", true, "t0"⟩], [], 2, 5, some "2024-01-02"⟩ :=
  ⟨(claim5_rollover_idempotent (fun _ => 1) "2024-01-02"
      ⟨[⟨"h1", none, 1, "Read", "09:00", "", true, "t0"⟩], [], 2, 5, some "2024-01-01"⟩).1,
    (claim5_rollover_idempotent (fun _ => 1) "2024-01-02"
      ⟨[⟨"h1", none, 1, "Read", "09:00", "", true, "t0"⟩], [], 2, 5, some "2024-01-02"⟩).2
      (Or.inr rfl)⟩

/-- C7: from a stale state, the rollover writes at the last-active-date
key exactly one `{id, groupId, name, completed}` entry per habit
scheduled for that date's weekday (values taken from the habit), and
writes nothing — leaving the History Log unchanged — when no habit was
scheduled for that weekday. -/
theorem claim7_rollover_history (dayIdx : String → Nat) (today : String) (s : AppState)
    (ld : String) (hld : s.lastDate = some ld) (hne : ld ≠ "")
    (hprec : dateBefore ld today = true) :
    ((s.habits.filter (fun h => h.dayOfWeek = dayIdx ld)) ≠ [] →
      histGet (checkDailyReset dayIdx today s).history ld =
        some ((s.habits.filter (fun h => h.dayOfWeek = dayIdx ld)).map toHistEntry)) ∧
    ((s.habits.filter (fun h => h.dayOfWeek = dayIdx ld)) = [] →
      (checkDailyReset dayIdx today s).history = s.history) := by
  have hnt : ld ≠ today := dateBefore_ne hprec
  have hg : ¬ (ld = "" ∨ ld = today) := by
    rintro (h | h)
    · exact hne h
    · exact hnt h
  obtain ⟨hs, hist, st, best, old⟩ := s
  simp only at hld
  subst hld
  constructor
  · intro hne'
    by_cases hall : (hs.filter (fun h => h.dayOfWeek = dayIdx ld)).all
        (fun h => h.completed) = true
    · rw [checkDailyReset_allDone dayIdx today hs hist st best ld hg
        (List.length_pos.mpr hne') hall]
      exact histGet_histSet_self _ _ _
    · have hnall : (hs.filter (fun h => h.dayOfWeek = dayIdx ld)).all
          (fun h => h.completed) = false := by simpa using hall
      rw [checkDailyReset_missed dayIdx today hs hist st best ld hg
        (List.length_pos.mpr hne') hnall]
      exact histGet_histSet_self _ _ _
  · intro hemp
    rw [checkDailyReset_noSchedule dayIdx today hs hist st best ld hg hemp]

/-- Witness for C7 at a concrete state: two habits, one scheduled on the
last-active weekday; its snapshot is written at that date key. -/
theorem claim7_rollover_history_witness :
    histGet (checkDailyReset (fun _ => 1) "2024-01-02"
        ⟨[⟨"h1", none, 1, "Read", "09:00", "", true, "t0"⟩,
          ⟨"h2", some "g1", 3, "Run", "07:00", "", false, "t0"⟩], [], 0, 0,
          some "2024-01-01"⟩).history "2024-01-01" =
      some [⟨"h1", none, "Read", true⟩] :=
  (claim7_rollover_history (fun _ => 1) "2024-01-02"
      ⟨[⟨"h1", none, 1, "Read", "09:00", "", true, "t0"⟩,
        ⟨"h2", some "g1", 3, "Run", "07:00", "", false, "t0"⟩], [], 0, 0,
        some "2024-01-01"⟩
      "2024-01-01" rfl (by decide) (by decide)).1 (by decide)

/-- C1 counterexample: the claim says that for today's date the totals
come from the Habit Store filtered to today's weekday.  With one habit
scheduled on weekday 1 while today falls on weekday 0, `getDateStats`
nevertheless counts it (`total = 1`), so it differs from the claimed
(filtered) behaviour. -/
theorem claim1_counterexample :
    getDateStats [⟨"h1", none, 1, "Read", "09:00", "", false, "t0"⟩] []
        "2024-01-01" "2024-01-01" ≠
      dailyStatsClaimed (fun _ => 0) [⟨"h1", none, 1, "Read", "09:00", "", false, "t0"⟩] []
        "2024-01-01" "2024-01-01" := by decide

/-- C1 amended: for today's date, `getDateStats` takes total/completed
from the *entire* live Habit Store (no weekday filter); otherwise they
come from the HistoryRecord at that date, an absent record yielding
`{0,0,0}`. -/
theorem claim1_daily_stats_amended (habits : List Habit) (history : History)
    (today date : String) :
    (date = today →
      getDateStats habits history today date =
        ⟨habits.length, (habits.filter (fun h => h.completed)).length,
          if habits.length = 0 then 0
          else jsRound100 (habits.filter (fun h => h.completed)).length habits.length⟩) ∧
    (date ≠ today → histGet history date = none →
      getDateStats habits history today date = ⟨0, 0, 0⟩) ∧
    (date ≠ today → ∀ dd, histGet history date = some dd → 0 < dd.length →
      getDateStats habits history today date =
        ⟨dd.length, (dd.filter (fun e => e.completed)).length,
          jsRound100 (dd.filter (fun e => e.completed)).length dd.length⟩) := by
  refine ⟨?_, ?_, ?_⟩
  · intro h
    simp [getDateStats, h]
  · intro h hnone
    simp [getDateStats, h, hnone]
  · intro h dd hdd hlen
    simp [getDateStats, h, hdd, hlen]

/-- Witness for C1 amended, covering its three cases at concrete inputs:
today (unfiltered store), an absent record, and a present record. -/
theorem claim1_daily_stats_amended_witness :
    getDateStats [⟨"h1", none, 1, "Read", "09:00", "", false, "t0"⟩] []
        "2024-01-01" "2024-01-01" = ⟨1, 0, 0⟩ ∧
    getDateStats [⟨"h1", none, 1, "Read", "09:00", "", false, "t0"⟩] []
        "2024-01-01" "2024-01-02" = ⟨0, 0, 0⟩ ∧
    getDateStats [⟨"h1", none, 1, "Read", "09:00", "", false, "t0"⟩]
        [("2023-12-31", [⟨"h1", none, "Read", true⟩])]
        "2024-01-01" "2023-12-31" = ⟨1, 1, 100⟩ :=
  ⟨(claim1_daily_stats_amended [⟨"h1", none, 1, "Read", "09:00", "", false, "t0"⟩] []
      "2024-01-01" "2024-01-01").1 rfl,
    (claim1_daily_stats_amended [⟨"h1", none, 1, "Read", "09:00", "", false, "t0"⟩] []
      "2024-01-01" "2024-01-02").2.1 (by decide) rfl,
    (claim1_daily_stats_amended [⟨"h1", none, 1, "Read", "09:00", "", false, "t0"⟩]
      [("2023-12-31", [⟨"h1", none, "Read", true⟩])]
      "2024-01-01" "2023-12-31").2.2 (by decide) [⟨"h1", none, "Read", true⟩] rfl
      (by decide)⟩

/-- C2 counterexample: on the empty date list `calculateStats` does not
return `bestDay = {date: null, rate: 0}` — the `-1` initial sentinel of
`bestDay` is returned unfixed (only `worstDay` gets the null/0 fix-up). -/
theorem claim2_counterexample :
    calculateStats [] [] "2024-01-01" [] ≠
      ⟨0, 0, 0, 0, ⟨none, 0⟩, ⟨none, 0⟩, 0⟩ := by decide

/-- C2 amended: on the empty date list `calculateStats` returns all-zero
totals and rates, `worstDay = {date: null, rate: 0}`, but
`bestDay = {date: null, rate: -1}`. -/
theorem claim2_range_stats_empty (habits : List Habit) (history : History) (today : String) :
    calculateStats habits history today [] =
      ⟨0, 0, 0, 0, ⟨none, -1⟩, ⟨none, 0⟩, 0⟩ := rfl

theorem updateHabitList_decomp (id : String) (u : UpdateFields) (l : List Habit)
    (hnd : (l.map Habit.id).Nodup) (hmem : id ∈ l.map Habit.id) :
    ∃ l₁ h l₂, l = l₁ ++ h :: l₂ ∧ h.id = id ∧
      updateHabitList id u l = l₁ ++ applyUpdate u h :: l₂ ∧
      (∀ h' ∈ l₁, h'.id ≠ id) ∧ (∀ h' ∈ l₂, h'.id ≠ id) := by
  induction l with
  | nil => simp at hmem
  | cons h t ih =>
    simp only [List.map_cons, List.nodup_cons] at hnd
    by_cases hh : h.id = id
    · refine ⟨[], h, t, by simp, hh, ?_, by simp, ?_⟩
      · simp [updateHabitList, hh]
      · intro h' hmem' heq
        exact hnd.1 (hh ▸ heq ▸ List.mem_map_of_mem Habit.id hmem')
    · have hmem' : id ∈ t.map Habit.id := by
        rcases List.mem_cons.mp hmem with h1 | h1
        · exact absurd h1.symm hh
        · exact h1
      obtain ⟨l₁, h₀, l₂, hdec, hid, hupd, hl₁, hl₂⟩ := ih hnd.2 hmem'
      refine ⟨h :: l₁, h₀, l₂, by simp [hdec], hid, ?_, ?_, hl₂⟩
      · simp [updateHabitList, hh, hupd]
      · intro h' hm
        rcases List.mem_cons.mp hm with h1 | h1
        · exact h1 ▸ hh
        · exact hl₁ h' h1

/-- C9: `updateHabit` merges the given fields into exactly the one habit
with the given id; every other Habit record — the instances before and
after it, including siblings sharing its groupId — is unchanged, and the
History Log and streak state are unchanged. -/
theorem claim9_update_habit_frame (s : AppState) (id : String) (u : UpdateFields)
    (hnd : (s.habits.map Habit.id).Nodup) (hmem : id ∈ s.habits.map Habit.id) :
    (updateHabit id u s).history = s.history ∧
    (updateHabit id u s).streak = s.streak ∧
    (updateHabit id u s).bestStreak = s.bestStreak ∧
    (updateHabit id u s).lastDate = s.lastDate ∧
    ∃ l₁ h l₂, s.habits = l₁ ++ h :: l₂ ∧ h.id = id ∧
      (updateHabit id u s).habits = l₁ ++ applyUpdate u h :: l₂ ∧
      (∀ h' ∈ l₁, h'.id ≠ id) ∧ (∀ h' ∈ l₂, h'.id ≠ id) :=
  ⟨rfl, rfl, rfl, rfl, updateHabitList_decomp id u s.habits hnd hmem⟩

/-- Witness for C9: updating the middle habit of a three-habit store
(two of them siblings in group g1) leaves the others untouched. -/
theorem claim9_update_habit_frame_witness :
    (updateHabit "h2" ⟨some "Jog", none, none⟩
        ⟨[⟨"h1", some "g1", 1, "Run", "07:00", "", false, "t0"⟩,
          ⟨"h2", some "g1", 3, "Run", "07:00", "", true, "t0"⟩,
          ⟨"h3", none, 5, "Read", "21:00", "", false, "t0"⟩],
          [("2024-01-01", [])], 4, 7, some "2024-01-02"⟩).history =
      [("2024-01-01", [])] ∧
    (updateHabit "h2" ⟨some "Jog", none, none⟩
        ⟨[⟨"h1", some "g1", 1, "Run", "07:00", "", false, "t0"⟩,
          ⟨"h2", some "g1", 3, "Run", "07:00", "", true, "t0"⟩,
          ⟨"h3", none, 5, "Read", "21:00", "", false, "t0"⟩],
          [("2024-01-01", [])], 4, 7, some "2024-01-02"⟩).streak = 4 :=
  ⟨(claim9_update_habit_frame
      ⟨[⟨"h1", some "g1", 1, "Run", "07:00", "", false, "t0"⟩,
        ⟨"h2", some "g1", 3, "Run", "07:00", "", true, "t0"⟩,
        ⟨"h3", none, 5, "Read", "21:00", "", false, "t0"⟩],
        [("2024-01-01", [])], 4, 7, some "2024-01-02"⟩
      "h2" ⟨some "Jog", none, none⟩ (by decide) (by decide)).1,
    (claim9_update_habit_frame
      ⟨[⟨"h1", some "g1", 1, "Run", "07:00", "", false, "t0"⟩,
        ⟨"h2", some "g1", 3, "Run", "07:00", "", true, "t0"⟩,
        ⟨"h3", none, 5, "Read", "21:00", "", false, "t0"⟩],
        [("2024-01-01", [])], 4, 7, some "2024-01-02"⟩
      "h2" ⟨some "Jog", none, none⟩ (by decide) (by decide)).2.1⟩

/-- C10: `addHabits` with an empty dayConfigs map returns early: the
state is unchanged and no persistence call is issued. -/
theorem claim10_add_habits_empty (gen : Nat → String) (now : String) (s : AppState) :
    addHabits gen now [] s = (s, []) := rfl

/-! ## Lemmas on the group partition of renderHabitsBreakdown -/

theorem groupVal_nil (k : String) : groupVal [] k = [] := rfl

theorem groupVal_cons_pos {k₀ : String} {v₀ : List Habit}
    {t : List (String × List Habit)} {k : String} (h : k₀ = k) :
    groupVal ((k₀, v₀) :: t) k = v₀ := by
  simp [groupVal, List.find?_cons_of_pos, h]

theorem groupVal_cons_neg {k₀ : String} {v₀ : List Habit}
    {t : List (String × List Habit)} {k : String} (h : ¬ k₀ = k) :
    groupVal ((k₀, v₀) :: t) k = groupVal t k := by
  have hfind : List.find? (fun p => p.1 = k) ((k₀, v₀) :: t) =
      List.find? (fun p => p.1 = k) t :=
    List.find?_cons_of_neg _ (by simpa using h)
  simp only [groupVal, hfind]

theorem insertGrouped_groupVal (acc : List (String × List Habit)) (key : String)
    (h : Habit) (k : String) :
    groupVal (insertGrouped acc key h) k =
      if k = key then groupVal acc k ++ [h] else groupVal acc k := by
  induction acc with
  | nil =>
    by_cases hk : k = key
    · subst hk
      simp [insertGrouped, groupVal_cons_pos rfl, groupVal_nil]
    · have hk' : ¬ key = k := fun he => hk he.symm
      simp [insertGrouped, groupVal_cons_neg hk', groupVal_nil, hk]
  | cons p t ih =>
    obtain ⟨k₀, v₀⟩ := p
    by_cases h₀ : k₀ = key
    · subst h₀
      rw [insertGrouped, if_pos rfl]
      by_cases hk : k₀ = k
      · rw [groupVal_cons_pos hk, groupVal_cons_pos hk, if_pos hk.symm]
      · have hk' : ¬ k = k₀ := fun he => hk he.symm
        rw [groupVal_cons_neg hk, groupVal_cons_neg hk, if_neg hk']
    · rw [insertGrouped, if_neg h₀]
      by_cases hk : k₀ = k
      · have hkey : ¬ k = key := fun he => h₀ (hk.trans he)
        rw [groupVal_cons_pos hk, groupVal_cons_pos hk, if_neg hkey]
      · rw [groupVal_cons_neg hk, groupVal_cons_neg hk, ih]

theorem habitGroups_foldl_groupVal (hs : List Habit)
    (acc : List (String × List Habit)) (k : String) :
    groupVal (hs.foldl (fun a h => insertGrouped a (groupKey h) h) acc) k =
      groupVal acc k ++ hs.filter (fun h => groupKey h = k) := by
  induction hs generalizing acc with
  | nil => simp
  | cons h t ih =>
    simp only [List.foldl_cons]
    rw [ih, insertGrouped_groupVal]
    by_cases hk : k = groupKey h
    · rw [if_pos hk, List.filter_cons, if_pos (by simpa using hk.symm)]
      simp
    · rw [if_neg hk, List.filter_cons,
        if_neg (by simpa using (fun he => hk he.symm : ¬ groupKey h = k))]

theorem habitGroups_groupVal (habits : List Habit) (k : String) :
    groupVal (habitGroups habits) k = habits.filter (fun h => groupKey h = k) := by
  have := habitGroups_foldl_groupVal habits [] k
  simpa [habitGroups, groupVal, List.find?] using this

theorem insertGrouped_keys (acc : List (String × List Habit)) (key : String) (h : Habit) :
    (insertGrouped acc key h).map Prod.fst =
      if key ∈ acc.map Prod.fst then acc.map Prod.fst else acc.map Prod.fst ++ [key] := by
  induction acc with
  | nil => simp [insertGrouped]
  | cons p t ih =>
    obtain ⟨k₀, v₀⟩ := p
    by_cases h₀ : k₀ = key
    · subst h₀
      simp [insertGrouped]
    · have h₀' : ¬ key = k₀ := fun he => h₀ he.symm
      by_cases hmem : key ∈ t.map Prod.fst
      · simp [insertGrouped, h₀, ih, hmem, h₀']
      · simp [insertGrouped, h₀, ih, hmem, h₀']

theorem insertGrouped_keys_nodup (acc : List (String × List Habit)) (key : String)
    (h : Habit) (hn : (acc.map Prod.fst).Nodup) :
    ((insertGrouped acc key h).map Prod.fst).Nodup := by
  rw [insertGrouped_keys]
  by_cases hmem : key ∈ acc.map Prod.fst
  · simpa [hmem] using hn
  · simp only [hmem, if_false]
    simp [List.nodup_append, hn, hmem]

theorem habitGroups_keys_nodup (habits : List Habit) :
    ((habitGroups habits).map Prod.fst).Nodup := by
  rw [habitGroups]
  have : ∀ (hs : List Habit) (acc : List (String × List Habit)),
      (acc.map Prod.fst).Nodup →
      ((hs.foldl (fun a h => insertGrouped a (groupKey h) h) acc).map Prod.fst).Nodup := by
    intro hs
    induction hs with
    | nil => intro acc hn; simpa using hn
    | cons h t ih =>
      intro acc hn
      exact ih _ (insertGrouped_keys_nodup acc (groupKey h) h hn)
  exact this habits [] (by simp)

theorem habitGroups_val_ne_nil (habits : List Habit) :
    ∀ e ∈ habitGroups habits, e.2 ≠ [] := by
  rw [habitGroups]
  have hstep : ∀ (acc : List (String × List Habit)) (key : String) (h : Habit),
      (∀ e ∈ acc, e.2 ≠ []) → ∀ e ∈ insertGrouped acc key h, e.2 ≠ [] := by
    intro acc key h hacc
    induction acc with
    | nil =>
      intro e he
      simp only [insertGrouped, List.mem_singleton] at he
      subst he
      simp
    | cons p t ih =>
      obtain ⟨k₀, v₀⟩ := p
      intro e he
      by_cases h₀ : k₀ = key
      · simp only [insertGrouped, h₀, if_pos] at he
        rcases List.mem_cons.mp he with he | he
        · subst he; simp
        · exact hacc e (List.mem_cons_of_mem _ he)
      · simp only [insertGrouped, h₀, if_neg, not_false_iff] at he
        rcases List.mem_cons.mp he with he | he
        · subst he
          exact hacc _ (List.mem_cons_self _ _)
        · exact ih (fun e' he' => hacc e' (List.mem_cons_of_mem _ he')) e he
  have : ∀ (hs : List Habit) (acc : List (String × List Habit)),
      (∀ e ∈ acc, e.2 ≠ []) →
      ∀ e ∈ hs.foldl (fun a h => insertGrouped a (groupKey h) h) acc, e.2 ≠ [] := by
    intro hs
    induction hs with
    | nil => intro acc hacc; simpa using hacc
    | cons h t ih =>
      intro acc hacc
      exact ih _ (hstep acc (groupKey h) h hacc)
  exact this habits [] (by simp)

theorem find?_eq_of_mem_nodup {acc : List (String × List Habit)} {k : String}
    {v : List Habit} (hn : (acc.map Prod.fst).Nodup) (hm : (k, v) ∈ acc) :
    acc.find? (fun p => p.1 = k) = some (k, v) := by
  induction acc with
  | nil => simp at hm
  | cons p t ih =>
    obtain ⟨k₀, v₀⟩ := p
    simp only [List.map_cons, List.nodup_cons] at hn
    rcases List.mem_cons.mp hm with he | he
    · rw [← he]
      simp [List.find?]
    · have hk : k₀ ≠ k := by
        intro hkk
        exact hn.1 (hkk ▸ (List.mem_map_of_mem Prod.fst he : k ∈ t.map Prod.fst))
      simp only [List.find?, decide_eq_false hk]
      exact ih hn.2 he

theorem habitGroups_mem_val {habits : List Habit} {k : String} {v : List Habit}
    (hm : (k, v) ∈ habitGroups habits) :
    v = habits.filter (fun h => groupKey h = k) := by
  have hfind := find?_eq_of_mem_nodup (habitGroups_keys_nodup habits) hm
  have hval := habitGroups_groupVal habits k
  rw [groupVal, hfind] at hval
  exact hval

theorem habitGroups_key_mem {habits : List Habit} {k : String}
    (hf : habits.filter (fun h => groupKey h = k) ≠ []) :
    k ∈ (habitGroups habits).map Prod.fst := by
  rcases hfind : (habitGroups habits).find? (fun p => p.1 = k) with _ | p
  · exfalso
    apply hf
    have := habitGroups_groupVal habits k
    rw [groupVal, hfind] at this
    exact this.symm
  · have hp : p.1 = k := by
      have := List.find?_some hfind
      simpa using this
    exact hp ▸ List.mem_map_of_mem Prod.fst (List.mem_of_find?_eq_some hfind)

theorem countP_keys_eq_one {l : List (String × List Habit)} {g : String}
    (hn : (l.map Prod.fst).Nodup) (hm : g ∈ l.map Prod.fst) :
    l.countP (fun p => p.1 = g) = 1 := by
  induction l with
  | nil => simp at hm
  | cons p t ih =>
    simp only [List.map_cons, List.nodup_cons] at hn
    by_cases hp : p.1 = g
    · have ht : t.countP (fun q => q.1 = g) = 0 := by
        rw [List.countP_eq_zero]
        intro q hq
        simp only [decide_eq_true_eq]
        intro hqg
        exact hn.1 (hp ▸ hqg ▸ (List.mem_map_of_mem Prod.fst hq : q.1 ∈ t.map Prod.fst))
      simp [List.countP_cons, hp, ht]
    · have hm' : g ∈ t.map Prod.fst := by
        rcases List.mem_cons.mp hm with he | he
        · exact absurd he.symm hp
        · exact he
      simp [List.countP_cons, hp, ih hn.2 hm']

/-! ## Lemmas on the per-group scan and the sort -/

theorem completedOn_le_one (today : String) (history : History) (hs : List Habit)
    (sh : Habit) (date : String) :
    completedOn today history hs sh date ≤ 1 := by
  unfold completedOn
  repeat' first | split | omega

theorem groupDayCounts_fst_general (dayIdx : String → Nat) (today : String)
    (history : History) (hs : List Habit) (dates : List String) (acc : Nat × Nat) :
    (dates.foldl (groupDateStep dayIdx today history hs) acc).1 =
      acc.1 + dates.countP (fun d =>
        (hs.find? (fun h => h.dayOfWeek = dayIdx d)).isSome) := by
  induction dates generalizing acc with
  | nil => simp
  | cons d ds ih =>
    simp only [List.foldl_cons, List.countP_cons]
    rcases hfind : hs.find? (fun h => h.dayOfWeek = dayIdx d) with _ | sh
    · have hstep : groupDateStep dayIdx today history hs acc d = acc := by
        simp [groupDateStep, hfind]
      rw [hstep, ih]
      simp [hfind]
    · have hstep : groupDateStep dayIdx today history hs acc d =
          (acc.1 + 1, acc.2 + completedOn today history hs sh d) := by
        simp [groupDateStep, hfind]
      rw [hstep, ih]
      simp only [hfind]
      simp only [Option.isSome_some]
      simp
      omega

theorem groupDayCounts_fst (dayIdx : String → Nat) (today : String) (history : History)
    (hs : List Habit) (dates : List String) :
    (groupDayCounts dayIdx today history hs dates).1 =
      dates.countP (fun d => hs.any (fun h => h.dayOfWeek = dayIdx d)) := by
  rw [groupDayCounts, groupDayCounts_fst_general]
  simp only [Nat.zero_add]
  apply List.countP_congr
  intro d _
  rcases hfind : hs.find? (fun h => h.dayOfWeek = dayIdx d) with _ | sh
  · have hany : hs.any (fun h => h.dayOfWeek = dayIdx d) = false := by
      rw [List.any_eq_false]
      intro x hx
      simpa using List.find?_eq_none.mp hfind x hx
    simp [hfind, hany]
  · have hpx := List.find?_some hfind
    have hany : hs.any (fun h => h.dayOfWeek = dayIdx d) = true := by
      rw [List.any_eq_true]
      exact ⟨sh, List.mem_of_find?_eq_some hfind, by simpa using hpx⟩
    simp [hfind, hany]

theorem groupDayCounts_le (dayIdx : String → Nat) (today : String) (history : History)
    (hs : List Habit) (dates : List String) :
    (groupDayCounts dayIdx today history hs dates).2 ≤
      (groupDayCounts dayIdx today history hs dates).1 := by
  rw [groupDayCounts]
  have : ∀ (ds : List String) (acc : Nat × Nat), acc.2 ≤ acc.1 →
      (ds.foldl (groupDateStep dayIdx today history hs) acc).2 ≤
        (ds.foldl (groupDateStep dayIdx today history hs) acc).1 := by
    intro ds
    induction ds with
    | nil => intro acc h; simpa using h
    | cons d t ih =>
      intro acc h
      simp only [List.foldl_cons]
      apply ih
      rcases hfind : hs.find? (fun h => h.dayOfWeek = dayIdx d) with _ | sh
      · simpa [groupDateStep, hfind] using h
      · have hle := completedOn_le_one today history hs sh d
        simp only [groupDateStep, hfind]
        omega
  exact this dates (0, 0) (by simp)

theorem insertByRate_perm (r : BreakdownRow) (l : List BreakdownRow) :
    (insertByRate r l).Perm (r :: l) := by
  induction l with
  | nil => simp [insertByRate]
  | cons x xs ih =>
    simp only [insertByRate]
    by_cases hr : r.rate < x.rate
    · simp only [hr, if_pos]
      exact (ih.cons x).trans (List.Perm.swap r x xs)
    · simp [hr]

theorem sortByRate_perm (l : List BreakdownRow) : (sortByRate l).Perm l := by
  induction l with
  | nil => simp [sortByRate]
  | cons x xs ih =>
    have : sortByRate (x :: xs) = insertByRate x (sortByRate xs) := rfl
    rw [this]
    exact (insertByRate_perm x (sortByRate xs)).trans (ih.cons x)

theorem jsRound100_le_100 {c t : Nat} (h : c ≤ t) : jsRound100 c t ≤ 100 := by
  rcases Nat.eq_zero_or_pos t with ht | ht
  · subst ht
    simp [jsRound100]
  · have h2t : 0 < 2 * t := by omega
    have hlt : (200 * c + t) / (2 * t) < 101 :=
      (Nat.div_lt_iff_lt_mul h2t).mpr (by omega)
    unfold jsRound100
    omega

/-! ## C6 and C8 -/

theorem mkBreakdownRow_groupId_iff (dayIdx : String → Nat) (today : String)
    (history : History) (habits : List Habit) (dates : List String) (g : String)
    (hgne : g ≠ "")
    (hcol : ∀ h ∈ habits, groupKey h = g → h.groupId = some g)
    {k : String} {v : List Habit} (hm : (k, v) ∈ habitGroups habits) :
    (mkBreakdownRow dayIdx today history dates (k, v)).groupId = some g ↔ k = g := by
  have hrow : (mkBreakdownRow dayIdx today history dates (k, v)).groupId = groupIdOf v := rfl
  have hv := habitGroups_mem_val hm
  have hne := habitGroups_val_ne_nil habits (k, v) hm
  obtain ⟨h₀, rest, hv'⟩ : ∃ h₀ rest, v = h₀ :: rest := by
    rcases v with _ | ⟨h₀, rest⟩
    · exact absurd rfl hne
    · exact ⟨h₀, rest, rfl⟩
  have hmem : h₀ ∈ habits.filter (fun h => groupKey h = k) := by
    rw [← hv, hv']
    exact List.mem_cons_self _ _
  have h₀mem : h₀ ∈ habits := (List.mem_filter.mp hmem).1
  have hkey : groupKey h₀ = k := by
    have := (List.mem_filter.mp hmem).2
    simpa using this
  rw [hrow, hv']
  simp only [groupIdOf]
  constructor
  · intro hgid
    have : groupKey h₀ = g := by
      simp [groupKey, hgid, hgne]
    rw [← hkey, this]
  · intro hk
    exact hcol h₀ h₀mem (hkey.trans hk)

/-- C6: for habits sharing one (non-empty) groupId `g`, `groupBreakdown`
(the renderHabitsBreakdown computation) over any date list produces
exactly one row for that group, and that row's `totalCount` equals the
number of dates whose weekday matches the weekday of some instance with
groupId `g`. -/
theorem claim6_group_breakdown (dayIdx : String → Nat) (today : String) (history : History)
    (habits : List Habit) (dates : List String) (g : String)
    (hgne : g ≠ "")
    (hex : ∃ h ∈ habits, h.groupId = some g)
    (hcol : ∀ h ∈ habits, groupKey h = g → h.groupId = some g) :
    (groupStats dayIdx today history habits dates).countP
        (fun r => r.groupId = some g) = 1 ∧
    ∀ r ∈ groupStats dayIdx today history habits dates, r.groupId = some g →
      r.totalCount = dates.countP (fun d =>
        (habits.filter (fun h => h.groupId = some g)).any
          (fun h => h.dayOfWeek = dayIdx d)) := by
  obtain ⟨hx, hxmem, hxgid⟩ := hex
  have hxkey : groupKey hx = g := by simp [groupKey, hxgid, hgne]
  have hfilt_ne : habits.filter (fun h => groupKey h = g) ≠ [] := by
    have : hx ∈ habits.filter (fun h => groupKey h = g) :=
      List.mem_filter.mpr ⟨hxmem, by simpa using hxkey⟩
    exact List.ne_nil_of_mem this
  have hfilt_eq : habits.filter (fun h => groupKey h = g) =
      habits.filter (fun h => h.groupId = some g) := by
    apply List.filter_congr
    intro h hmem
    by_cases hg : groupKey h = g
    · simp [hg, hcol h hmem hg]
    · have : ¬ h.groupId = some g := by
        intro hc
        exact hg (by simp [groupKey, hc, hgne])
      simp [hg, this]
  constructor
  · simp only [groupStats]
    rw [(sortByRate_perm _).countP_eq, groupStatsPre, List.countP_map]
    have hcongr : (habitGroups habits).countP
          ((fun r => decide (r.groupId = some g)) ∘ mkBreakdownRow dayIdx today history dates) =
        (habitGroups habits).countP (fun p => p.1 = g) := by
      apply List.countP_congr
      intro e hmem
      obtain ⟨k, v⟩ := e
      have hiff := mkBreakdownRow_groupId_iff dayIdx today history habits dates g
        hgne hcol hmem
      simp only [Function.comp_apply, decide_eq_true_eq]
      exact hiff
    rw [hcongr]
    exact countP_keys_eq_one (habitGroups_keys_nodup habits) (habitGroups_key_mem hfilt_ne)
  · intro r hr hrg
    simp only [groupStats] at hr
    have hr' : r ∈ groupStatsPre dayIdx today history habits dates :=
      (sortByRate_perm _).mem_iff.mp hr
    obtain ⟨e, hemem, herow⟩ := List.mem_map.mp hr'
    obtain ⟨k, v⟩ := e
    have hkg : k = g := by
      have hiff := mkBreakdownRow_groupId_iff dayIdx today history habits dates g
        hgne hcol hemem
      exact hiff.mp (herow ▸ hrg)
    have hv := habitGroups_mem_val hemem
    rw [hkg] at hv
    have : r.totalCount = (groupDayCounts dayIdx today history v dates).1 := by
      rw [← herow]
      rfl
    rw [this, groupDayCounts_fst, hv, hfilt_eq]

/-- Witness for C6: two habits share group g1 on weekdays 1 and 3; over
three dates with weekdays 1, 3, 5 the breakdown has exactly one g1 row. -/
theorem claim6_group_breakdown_witness :
    (groupStats (fun d => if d = "2024-01-01" then 1 else if d = "2024-01-02" then 3 else 5)
        "2024-01-03" []
        [⟨"h1", some "g1", 1, "Run", "07:00", "", true, "t0"⟩,
          ⟨"h2", some "g1", 3, "Run", "07:00", "", false, "t0"⟩]
        ["2024-01-01", "2024-01-02", "2024-01-03"]).countP
      (fun r => r.groupId = some "g1") = 1 :=
  (claim6_group_breakdown
      (fun d => if d = "2024-01-01" then 1 else if d = "2024-01-02" then 3 else 5)
      "2024-01-03" []
      [⟨"h1", some "g1", 1, "Run", "07:00", "", true, "t0"⟩,
        ⟨"h2", some "g1", 3, "Run", "07:00", "", false, "t0"⟩]
      ["2024-01-01", "2024-01-02", "2024-01-03"] "g1"
      (by decide)
      ⟨⟨"h1", some "g1", 1, "Run", "07:00", "", true, "t0"⟩, by simp, rfl⟩
      (by decide)).1

/-- C8: rates never escape [0,100] and a zero total forces a zero rate —
for `getDateStats` on every input, and for every row of the
renderHabitsBreakdown computation. -/
theorem claim8_rate_bounds (habits : List Habit) (history : History) (today : String) :
    (∀ date, (getDateStats habits history today date).rate ≤ 100 ∧
      ((getDateStats habits history today date).total = 0 →
        (getDateStats habits history today date).rate = 0)) ∧
    (∀ (dayIdx : String → Nat) (dates : List String),
      ∀ r ∈ groupStats dayIdx today history habits dates,
        r.rate ≤ 100 ∧ (r.totalCount = 0 → r.rate = 0)) := by
  constructor
  · intro date
    by_cases hd : date = today
    · by_cases hlen : habits.length = 0
      · constructor
        · simp [getDateStats, hd, hlen]
        · intro _
          simp [getDateStats, hd, hlen]
      · constructor
        · have hb := jsRound100_le_100
            (List.length_filter_le (fun h => h.completed) habits)
          simp [getDateStats, hd, hlen, hb]
        · intro h0
          have htot : (getDateStats habits history today date).total = habits.length := by
            simp [getDateStats, hd]
          omega
    · rcases hh : histGet history date with _ | dd
      · simp [getDateStats, hd, hh]
      · by_cases hlen : dd.length > 0
        · constructor
          · have hb := jsRound100_le_100
              (List.length_filter_le (fun e => e.completed) dd)
            simp [getDateStats, hd, hh, hlen, hb]
          · intro h0
            have htot : (getDateStats habits history today date).total = dd.length := by
              simp [getDateStats, hd, hh, hlen]
            omega
        · simp [getDateStats, hd, hh, hlen]
  · intro dayIdx dates r hr
    simp only [groupStats] at hr
    have hr' : r ∈ groupStatsPre dayIdx today history habits dates :=
      (sortByRate_perm _).mem_iff.mp hr
    obtain ⟨e, hemem, herow⟩ := List.mem_map.mp hr'
    have hle := groupDayCounts_le dayIdx today history e.2 dates
    have hrate : r.rate = if (groupDayCounts dayIdx today history e.2 dates).1 = 0 then 0
        else jsRound100 (groupDayCounts dayIdx today history e.2 dates).2
          (groupDayCounts dayIdx today history e.2 dates).1 := by
      rw [← herow]
      rfl
    have htot : r.totalCount = (groupDayCounts dayIdx today history e.2 dates).1 := by
      rw [← herow]
      rfl
    constructor
    · rw [hrate]
      by_cases h0 : (groupDayCounts dayIdx today history e.2 dates).1 = 0
      · simp [h0]
      · simp only [h0, if_neg, not_false_iff]
        exact jsRound100_le_100 hle
    · intro h0
      rw [htot] at h0
      rw [hrate]
      simp [h0]

/-- Witness for C8: the bounds instantiated at a one-habit store — the
daily stats of a concrete date and the single row of the breakdown over
an empty date range. -/
theorem claim8_rate_bounds_witness :
    ((getDateStats [⟨"h1", none, 1, "Read", "09:00", "", true, "t0"⟩] []
        "2024-01-01" "2024-01-01").rate ≤ 100) ∧
    ((⟨"Read", none, 0, 0, 0, "Mon", false⟩ : BreakdownRow).rate ≤ 100 ∧
      ((⟨"Read", none, 0, 0, 0, "Mon", false⟩ : BreakdownRow).totalCount = 0 →
        (⟨"Read", none, 0, 0, 0, "Mon", false⟩ : BreakdownRow).rate = 0)) :=
  ⟨((claim8_rate_bounds [⟨"h1", none, 1, "Read", "09:00", "", true, "t0"⟩] []
      "2024-01-01").1 "2024-01-01").1,
    (claim8_rate_bounds [⟨"h1", none, 1, "Read", "09:00", "", true, "t0"⟩] []
      "2024-01-01").2 (fun _ => 0) []
      ⟨"Read", none, 0, 0, 0, "Mon", false⟩ (by decide)⟩

end HabitTracker
